import Mathlib

/-
Verification of the sat-uy backend core against its specification.

The Python sources under backend/ are shallowly embedded below:
timestamps are modelled as rational numbers of seconds, Python floats as
rationals, fallible code as Except or Option, and module-level mutable
state (the refresh-attempt ledger, the on-disk slot files) as explicit
state records threaded through the functions.
-/

/-- Python int() applied to a real quantity truncates toward zero. -/
def pytrunc (q : ℚ) : ℤ :=
  if q < 0 then -(Rat.floor (-q)) else Rat.floor q

/-- Python round() ties-to-even on the scaled value: nearest integer, halves to even. -/
def pyRoundHalfEven (q : ℚ) : ℤ :=
  let f := Rat.floor q
  let r := q - (f : ℚ)
  if r < 1/2 then f
  else if 1/2 < r then f + 1
  else if f % 2 = 0 then f else f + 1

/-- Python round(x, d): round half-to-even at d decimal places. -/
def roundTo (d : ℕ) (q : ℚ) : ℚ :=
  (pyRoundHalfEven (q * 10 ^ d) : ℚ) / 10 ^ d

namespace PassesService

/-- Skyfield find_events event codes: 0 = rise, 1 = culmination, 2 = set. -/
inductive EventKind where
  | rise
  | culminate
  | set
deriving DecidableEq, Repr

/-- The dict called current in compute_passes_mvd: each key is present or absent.
The UTC and local-zone string pairs of the source collapse to one timestamp here. -/
structure PassRec where
  riseUtc : Option ℤ
  culminationUtc : Option ℤ
  maxElevationDeg : Option ℚ
  setUtc : Option ℤ
deriving DecidableEq, Repr

/-- The empty dict that compute_passes_mvd resets current to. -/
def emptyPass : PassRec :=
  { riseUtc := none, culminationUtc := none, maxElevationDeg := none, setUtc := none }

/-- One iteration of the event loop of compute_passes_mvd (passes_service.py lines 49-67).
elev models the altaz altitude computed at a culmination instant; the source rounds it
to 2 decimals. On a rise the whole current dict is replaced; on a culmination the dict
is updated in place; on a set the dict is updated, appended to results only when
max_elevation_deg is present, and reset. -/
def passStep (elev : ℤ → ℚ) (st : List PassRec × PassRec) (ev : ℤ × EventKind) :
    List PassRec × PassRec :=
  match ev.2 with
  | .rise =>
      (st.1, { riseUtc := some ev.1, culminationUtc := none,
               maxElevationDeg := none, setUtc := none })
  | .culminate =>
      (st.1, { st.2 with culminationUtc := some ev.1,
                         maxElevationDeg := some (roundTo 2 (elev ev.1)) })
  | .set =>
      let cur := { st.2 with setUtc := some ev.1 }
      (if cur.maxElevationDeg.isSome then st.1 ++ [cur] else st.1, emptyPass)

/-- The pass accumulator of compute_passes_mvd: fold the event sequence from an
empty results list and an empty current dict, returning the emitted passes. -/
def compute_passes (elev : ℤ → ℚ) (events : List (ℤ × EventKind)) : List PassRec :=
  (events.foldl (passStep elev) ([], emptyPass)).1

end PassesService

namespace TrackService

/-- A ground-track sample: the source object stores fields in (lat, lon) order. -/
structure TrackPoint where
  lat : ℚ
  lon : ℚ
deriving DecidableEq, Repr

/-- Result of a track computation: the sampled times, the points list and the
GeoJSON LineString coordinates (built in [lon, lat] order by the source). -/
structure TrackResult where
  times : List ℚ
  points : List TrackPoint
  coords : List (ℚ × ℚ)
deriving DecidableEq, Repr

/-- Skyfield ts.linspace(t0, t1, n): n evenly spaced instants from t0 to t1
inclusive. Times are rationals of seconds. -/
def linspace (t0 t1 : ℚ) (n : ℕ) : List ℚ :=
  (List.range n).map (fun i : ℕ => t0 + (i : ℚ) * (t1 - t0) / ((n : ℚ) - 1))

/-- One sample of compute_track / compute_track_now: subpoint lat and lon
rounded to 6 decimals, in (lat, lon) field order. subp is the propagator
capability time -> (lat, lon). -/
def mkPoint (subp : ℚ → ℚ × ℚ) (t : ℚ) : TrackPoint :=
  { lat := roundTo 6 (subp t).1, lon := roundTo 6 (subp t).2 }

/-- compute_track (track_service.py lines 20-76): reject end <= start, then
sample n = max(2, total // step + 1) instants via linspace; points store the
rounded (lat, lon) while the GeoJSON coordinates store the unrounded values
as [lon, lat]. -/
def compute_track (subp : ℚ → ℚ × ℚ) (start endT : ℚ) (step : ℤ) :
    Except String TrackResult :=
  if endT ≤ start then .error "end_utc debe ser mayor que start_utc"
  else
    let total : ℤ := pytrunc (endT - start)
    let n : ℤ := max 2 (Int.fdiv total step + 1)
    let times := linspace start endT n.toNat
    .ok { times := times,
          points := times.map (mkPoint subp),
          coords := times.map (fun t => ((subp t).2, (subp t).1)) }

/-- The while loop of compute_track_now: collect t, t+step, ... while t <= endT. -/
def genTimes (endT : ℚ) (step : ℤ) (hstep : 0 < step) (t : ℚ) : List ℚ :=
  if h : t ≤ endT then t :: genTimes endT step hstep (t + (step : ℚ)) else []
termination_by (Int.ceil ((endT - t) / (step : ℚ)) + 1).toNat
decreasing_by
  have hs : (0 : ℚ) < (step : ℚ) := by exact_mod_cast hstep
  have hne : (step : ℚ) ≠ 0 := ne_of_gt hs
  have key : (endT - (t + (step : ℚ))) / (step : ℚ) = (endT - t) / (step : ℚ) - 1 := by
    rw [show endT - (t + (step : ℚ)) = (endT - t) - (step : ℚ) by ring, sub_div,
      div_self hne]
  have hx : 0 ≤ (endT - t) / (step : ℚ) := div_nonneg (by linarith) hs.le
  have hc : 0 ≤ Int.ceil ((endT - t) / (step : ℚ)) := Int.ceil_nonneg hx
  rw [key, Int.ceil_sub_one]
  omega

/-- compute_track_now (track_now_service.py lines 14-68): validate the minutes
and step bounds, then sample from start stepping step seconds while not past
start + 60 * minutes; points store rounded (lat, lon); the GeoJSON coordinates
are rebuilt from the rounded point fields as [lon, lat]. -/
def compute_track_now (subp : ℚ → ℚ × ℚ) (start : ℚ) (minutes step : ℤ) :
    Except String TrackResult :=
  if minutes < 1 ∨ 180 < minutes then .error "minutes debe estar entre 1 y 180"
  else if h : step < 1 ∨ 120 < step then .error "step_seconds debe estar entre 1 y 120"
  else
    let endT := start + 60 * (minutes : ℚ)
    let times := genTimes endT step (by omega) start
    .ok { times := times,
          points := times.map (mkPoint subp),
          coords := (times.map (mkPoint subp)).map (fun p => (p.lon, p.lat)) }

/-- Property of one compute_track call: it succeeds with at least two samples,
counting max(2, total // step + 1) of them, the first sample exactly at start,
the last exactly at endT, and one uniform spacing between consecutive samples. -/
def UniformCover (subp : ℚ → ℚ × ℚ) (start endT : ℚ) (step : ℤ) : Prop :=
  ∃ r : TrackResult, compute_track subp start endT step = .ok r ∧
    2 ≤ r.times.length ∧
    r.times.length = (max 2 (Int.fdiv (pytrunc (endT - start)) step + 1)).toNat ∧
    r.times.head? = some start ∧
    r.times.getLast? = some endT ∧
    ∀ i : ℕ, ∀ a b : ℚ, r.times[i]? = some a → r.times[i + 1]? = some b →
      b - a = (endT - start) / ((r.times.length : ℚ) - 1)

/-- Property of one compute_track_now call: it succeeds and its samples are
the arithmetic progression start, start + step, ... with floor(window/step) + 1
members; the first sample is start, and nothing guarantees a second sample or
that the window end is sampled. -/
def NowProgression (subp : ℚ → ℚ × ℚ) (start : ℚ) (minutes step : ℤ) : Prop :=
  ∃ r : TrackResult, compute_track_now subp start minutes step = .ok r ∧
    r.times =
      (List.range ((Int.floor ((60 * (minutes : ℚ)) / (step : ℚ))).toNat + 1)).map
        (fun k : ℕ => start + (k : ℚ) * (step : ℚ)) ∧
    r.times.head? = some start ∧ 1 ≤ r.times.length

end TrackService

namespace TleStore

/-- The TLE dataclass of tle_store.py. -/
structure TLE where
  name : String
  line1 : String
  line2 : String
deriving DecidableEq, Repr

/-- Split a character list at newline characters, accumulating the current
line in reverse. -/
def splitLinesAux : List Char → List Char → List (List Char)
  | [], acc => [acc.reverse]
  | c :: rest, acc =>
      if c = '\n' then acc.reverse :: splitLinesAux rest []
      else splitLinesAux rest (c :: acc)

/-- Python str.splitlines() restricted to newline separators. A trailing
newline yields one extra empty line here, which every caller filters away. -/
def pySplitlines (s : String) : List String :=
  (splitLinesAux s.data []).map String.mk

/-- Python str.strip(): drop whitespace from both ends. -/
def pyStrip (s : String) : String :=
  String.mk (((s.data.dropWhile Char.isWhitespace).reverse.dropWhile
    Char.isWhitespace).reverse)

/-- Python str.startswith(p). -/
def strStarts (s p : String) : Bool :=
  p.data.isPrefixOf s.data

/-- Split a character list at whitespace runs, discarding empty tokens. -/
def splitWsAux : List Char → List Char → List (List Char)
  | [], acc => if acc.isEmpty then [] else [acc.reverse]
  | c :: rest, acc =>
      if c.isWhitespace then
        if acc.isEmpty then splitWsAux rest []
        else acc.reverse :: splitWsAux rest []
      else splitWsAux rest (c :: acc)

/-- Python str.split() with no arguments: split on whitespace runs, no empties. -/
def pySplitWs (s : String) : List String :=
  (splitWsAux s.data []).map String.mk

/-- The digit characters of a string, in order. -/
def digitsOfStr (s : String) : List Char :=
  s.data.filter Char.isDigit

/-- Python int() on a nonempty string of decimal digits. -/
def natFromDigits (l : List Char) : ℕ :=
  l.foldl (fun a c => 10 * a + (c.toNat - 48)) 0

/-- _parse_catnr_from_line1 (tle_store.py lines 82-88): take the second
whitespace token of line1, keep its digits, fail if none remain. A missing
second token raises IndexError in the source; both failures are errors here. -/
def _parse_catnr_from_line1 (line1 : String) : Except String ℕ :=
  match (pySplitWs line1).get? 1 with
  | none => .error "IndexError"
  | some token =>
      let digits := digitsOfStr token
      if digits.isEmpty then .error "no pude leer CATNR en line1"
      else .ok (natFromDigits digits)

/-- Python lstrip of the BOM character: drop leading U+FEFF characters. -/
def stripBom (s : String) : String :=
  String.mk (s.data.dropWhile (fun c => c = Char.ofNat 0xFEFF))

/-- The shared line preprocessing: split on newlines, strip each line, keep
the non-blank ones. -/
def nonBlankLines (text : String) : List String :=
  ((pySplitlines text).map pyStrip).filter (fun x => x ≠ "")

/-- _read_tle_file (tle_store.py lines 91-108) applied to the file content:
require at least 3 non-blank lines, require the "1 "/"2 " line starts after
dropping a BOM from line1, require the embedded catnr to match; each
violation raises (is an error), it is not absorbed. -/
def _read_tle_file (content : String) (catnr : ℕ) : Except String TLE :=
  let lines := nonBlankLines content
  if lines.length < 3 then .error "TLE invalido (esperaba 3 lineas)"
  else
    let name := lines.getD 0 ""
    let line1 := stripBom (lines.getD 1 "")
    let line2 := lines.getD 2 ""
    if ¬ (strStarts line1 "1 " ∧ strStarts line2 "2 ") then
      .error "TLE invalido (lineas 1/2 no empiezan con 1 y 2)"
    else
      match _parse_catnr_from_line1 line1 with
      | .error e => .error e
      | .ok found =>
          if found ≠ catnr then .error "TLE invalido (CATNR distinto)"
          else .ok { name := name, line1 := line1, line2 := line2 }

/-- The read path of get_satellite_by_key (tle_store.py lines 224-229) after
catalog lookup and optional refresh: a missing file raises the NoLocalElements
style error, a present file is parsed by _read_tle_file whose error, if any,
propagates to the caller unchanged. -/
def resolve_read (file : Option String) (catnr : ℕ) : Except String TLE :=
  match file with
  | none => .error "No existe TLE local"
  | some content => _read_tle_file content catnr

/-- The per-index body of the scan loop of _parse_tle_text_any: index i must
hold a line starting "1 " whose embedded catnr matches, index i+1 a line
starting "2 "; the name is the line before i, or the placeholder when i = 0. -/
def tryIndex (lines : List String) (catnr : ℕ) (i : ℕ) :
    Option (String × String × String) :=
  let line1 := lines.getD i ""
  if ¬ strStarts line1 "1 " then none
  else
    match _parse_catnr_from_line1 line1 with
    | .error _ => none
    | .ok found =>
        if found ≠ catnr then none
        else
          let line2 := lines.getD (i + 1) ""
          if ¬ strStarts line2 "2 " then none
          else
            some (if 1 ≤ i then lines.getD (i - 1) "" else "CATNR " ++ toString catnr,
                  line1, line2)

/-- _parse_tle_text_any (tle_store.py lines 277-304): scan indices
range(1, len(lines) - 1), that is 1 .. len - 2, returning the first hit. -/
def _parse_tle_text_any (text : String) (catnr : ℕ) :
    Option (String × String × String) :=
  let lines := nonBlankLines text
  (List.range' 1 (lines.length - 2)).findSome? (tryIndex lines catnr)

/-- Modelled from the spec: the free-text TLE locator as the spec words it,
scanning every line that has a successor, the first line included, so that a
match at index 0 yields the synthesized "CATNR n" name. -/
def locator_spec (text : String) (catnr : ℕ) :
    Option (String × String × String) :=
  let lines := nonBlankLines text
  (List.range (lines.length - 1)).findSome? (tryIndex lines catnr)

end TleStore

namespace Acquisition

/-- The network sources refresh_tle_best_effort tries, in order. -/
inductive Source where
  | satnogs
  | celestrak
deriving DecidableEq, Repr

/-- The mutable state refresh_tle_best_effort touches: the in-memory
_LAST_REFRESH_ATTEMPT ledger and the on-disk slot files, per catnr. -/
structure StoreState where
  lastAttempt : ℕ → Option ℚ
  tleFile : ℕ → Option String
  metaFile : ℕ → Option (ℕ × ℚ × String)

/-- Result of one refresh call: the returned boolean, the state after the
call, and the network sources contacted during the call. -/
structure RefreshOut where
  ok : Bool
  st : StoreState
  contacted : List Source

/-- The commit of a successful fetch: _atomic_write_tle then _write_meta,
seen at the level of the resulting slot contents. -/
def writeSlot (st : StoreState) (now : ℚ) (catnr : ℕ) (rec : TleStore.TLE)
    (source : String) : StoreState :=
  { st with
      tleFile := fun k =>
        if k = catnr then some (rec.name ++ "\n" ++ rec.line1 ++ "\n" ++ rec.line2 ++ "\n")
        else st.tleFile k,
      metaFile := fun k =>
        if k = catnr then some (catnr, now, source) else st.metaFile k }

/-- The body of refresh_tle_best_effort after the cooldown gate: record the
attempt, then try SatNOGS, then CelesTrak; fetch models one network source
attempt returning an already-validated record or nothing. -/
def refreshBody (st : StoreState) (now : ℚ) (catnr : ℕ)
    (fetch : Source → Option TleStore.TLE) : RefreshOut :=
  let st1 : StoreState :=
    { st with lastAttempt := fun k => if k = catnr then some now else st.lastAttempt k }
  match fetch .satnogs with
  | some rec =>
      { ok := true, st := writeSlot st1 now catnr rec "satnogs", contacted := [.satnogs] }
  | none =>
      match fetch .celestrak with
      | some rec =>
          { ok := true, st := writeSlot st1 now catnr rec "celestrak",
            contacted := [.satnogs, .celestrak] }
      | none => { ok := false, st := st1, contacted := [.satnogs, .celestrak] }

/-- refresh_tle_best_effort (tle_store.py lines 183-209): return failure
immediately, contacting nothing, when the last attempt is younger than the
2 minute cooldown; otherwise record the attempt and try the sources. -/
def refresh_tle_best_effort (st : StoreState) (now : ℚ) (catnr : ℕ)
    (fetch : Source → Option TleStore.TLE) : RefreshOut :=
  match st.lastAttempt catnr with
  | some last =>
      if now - last < 120 then { ok := false, st := st, contacted := [] }
      else refreshBody st now catnr fetch
  | none => refreshBody st now catnr fetch

/-- An empty store: no attempts recorded, no files on disk. -/
def emptyStore : StoreState :=
  { lastAttempt := fun _ => none, tleFile := fun _ => none, metaFile := fun _ => none }

/-- A network in which every source attempt fails. -/
def fetchFail : Source → Option TleStore.TLE := fun _ => none

end Acquisition

namespace AtomicWrite

/-- The files _atomic_write_tle and _write_meta touch for one catnr. -/
inductive FileId where
  | tleFile (c : ℕ)
  | metaFile (c : ℕ)
  | tmpFile (c : ℕ)
deriving DecidableEq, Repr

/-- The storage layer operations the source uses: Path.write_text, which
truncates and then writes, and Path.replace, the atomic rename. -/
inductive FsOp where
  | writeFull (f : FileId) (content : String)
  | replace (src dst : FileId)
deriving DecidableEq, Repr

/-- _atomic_write_tle (tle_store.py lines 111-115) as its operation trace:
write the three joined lines to the sibling temporary file, then atomically
replace the target with it. -/
def _atomic_write_tle (catnr : ℕ) (name line1 line2 : String) : List FsOp :=
  [ .writeFull (.tmpFile catnr) (name ++ "\n" ++ line1 ++ "\n" ++ line2 ++ "\n"),
    .replace (.tmpFile catnr) (.tleFile catnr) ]

/-- The JSON text _write_meta serializes. -/
def metaJson (catnr : ℕ) (fetchedAt source : String) : String :=
  "\x7b\"catnr\": " ++ toString catnr ++ ", \"fetched_at_utc\": \"" ++ fetchedAt ++
    "\", \"source\": \"" ++ source ++ "\"\x7d"

/-- _write_meta (tle_store.py lines 72-79) as its operation trace: a single
direct write_text of the metadata JSON to the metadata file. -/
def _write_meta (catnr : ℕ) (fetchedAt source : String) : List FsOp :=
  [ .writeFull (.metaFile catnr) (metaJson catnr fetchedAt source) ]

/-- Effect of one operation on the file system (file id to content). -/
def applyOp (fs : FileId → String) : FsOp → FileId → String
  | .writeFull f c => fun g => if g = f then c else fs g
  | .replace s d => fun g => if g = d then fs s else fs g

/-- The first k characters of a string. -/
def strTake (s : String) (k : ℕ) : String :=
  String.mk (s.toList.take k)

/-- Contents a reader of target can observe while one operation runs: a direct
write exposes the prior content and every prefix of the new content, because
write_text truncates and then appends; an atomic replace exposes only the
complete old or the complete new content; an operation on another file leaves
target untouched. -/
def obsDuring (fs : FileId → String) (op : FsOp) (target : FileId) : List String :=
  match op with
  | .writeFull f c =>
      if f = target then fs target :: (List.range (c.length + 1)).map (strTake c)
      else [fs target]
  | .replace s d => if d = target then [fs target, fs s] else [fs target]

/-- Contents a reader of target can observe at any instant of a trace. -/
def obsTrace (fs : FileId → String) (ops : List FsOp) (target : FileId) : List String :=
  match ops with
  | [] => [fs target]
  | op :: rest => obsDuring fs op target ++ obsTrace (applyOp fs op) rest target

end AtomicWrite

namespace Staleness

/-- The 6 hour TTL in seconds. -/
def ttlSeconds : ℚ := 21600

/-- _needs_refresh (tle_store.py lines 118-134). meta is the outcome of
_read_meta plus the fetched_at_utc extraction: none when the metadata file is
missing, unreadable or empty; some none when it is readable but the
fetched_at_utc entry is missing or unparsable, which the source turns into an
exception caught as True; some (some f) when it parses to instant f.
mtime is the TLE file modification instant, none when the file is missing. -/
def _needs_refresh (now : ℚ) (meta : Option (Option ℚ)) (mtime : Option ℚ) : Bool :=
  match meta with
  | none =>
      match mtime with
      | none => true
      | some m => decide (ttlSeconds < now - m)
  | some none => true
  | some (some f) => decide (ttlSeconds < now - f)

/-- The mtime fallback of tle_age_seconds: age from the file modification
instant, unknown when the file is missing. -/
def ageFromMtime (now : ℚ) (mtime : Option ℚ) : Option ℤ :=
  match mtime with
  | none => none
  | some m => some (pytrunc (now - m))

/-- tle_age_seconds (tle_store.py lines 253-269): prefer the metadata instant,
truncating the age to whole seconds; a readable metadata record without a
usable fetched_at_utc falls through to the file mtime; no file means unknown. -/
def tle_age_seconds (now : ℚ) (meta : Option (Option ℚ)) (mtime : Option ℚ) :
    Option ℤ :=
  match meta with
  | some (some f) => some (pytrunc (now - f))
  | some none => ageFromMtime now mtime
  | none => ageFromMtime now mtime

/-- is_stale (tle_store.py lines 271-275): unknown age is stale, otherwise
stale exactly when the truncated age exceeds the truncated TTL. -/
def is_stale (now : ℚ) (meta : Option (Option ℚ)) (mtime : Option ℚ) : Bool :=
  match tle_age_seconds now meta mtime with
  | none => true
  | some age => decide ((21600 : ℤ) < age)

end Staleness

/-- The computable Rat.floor used in the embedding agrees with the floor of
the FloorRing instance, letting norm_num evaluate it. -/
theorem ratFloor_eq (q : ℚ) : q.floor = ⌊q⌋ :=
  (Rat.floor_def' q).trans Rat.floor_def.symm

namespace PassesService

/-- Every pass the fold emits has culmination, max elevation and set populated,
as long as the incoming accumulator does and the current dict satisfies the
invariant that a stored max elevation implies a stored culmination time. -/
theorem compute_passes_fold_invariant (elev : ℤ → ℚ) (events : List (ℤ × EventKind)) :
    ∀ acc cur,
      (∀ p ∈ acc, p.culminationUtc.isSome = true ∧ p.maxElevationDeg.isSome = true ∧
        p.setUtc.isSome = true) →
      (cur.maxElevationDeg.isSome = true → cur.culminationUtc.isSome = true) →
      ∀ p ∈ (events.foldl (passStep elev) (acc, cur)).1,
        p.culminationUtc.isSome = true ∧ p.maxElevationDeg.isSome = true ∧
        p.setUtc.isSome = true := by
  induction events with
  | nil =>
      intro acc cur hacc _ p hp
      exact hacc p hp
  | cons ev rest ih =>
      obtain ⟨t, k⟩ := ev
      intro acc cur hacc hcur p hp
      cases k with
      | rise =>
          simp only [List.foldl_cons, passStep] at hp
          exact ih _ _ hacc (by intro h; simp at h) p hp
      | culminate =>
          simp only [List.foldl_cons, passStep] at hp
          exact ih _ _ hacc (by intro _; rfl) p hp
      | set =>
          simp only [List.foldl_cons, passStep] at hp
          by_cases hmax : cur.maxElevationDeg.isSome = true
          · rw [if_pos hmax] at hp
            refine ih _ emptyPass ?_ ?_ p hp
            · intro q hq
              rcases List.mem_append.mp hq with hq | hq
              · exact hacc q hq
              · rcases List.mem_singleton.mp hq with rfl
                exact ⟨hcur hmax, hmax, rfl⟩
            · intro h; simp [emptyPass] at h
          · rw [if_neg hmax] at hp
            refine ih _ emptyPass hacc ?_ p hp
            intro h; simp [emptyPass] at h

/-- C1 counterexample: the claim states that every emitted PassEvent has all
four fields populated, in particular that a window whose event sequence begins
with a culmination followed by a set (window opens mid-pass, no rise event)
never yields a pass lacking a rise time. The code emits exactly such a pass:
a culmination at 2 then a set at 3, with no rise event, produce one PassEvent
whose riseUtc is absent. -/
theorem c1_counterexample_missing_rise :
    compute_passes (fun _ => (45 : ℚ))
        [(2, EventKind.culminate), (3, EventKind.set)] =
      [{ riseUtc := none, culminationUtc := some 2, maxElevationDeg := some 45,
         setUtc := some 3 }] := by
  norm_num [compute_passes, passStep, emptyPass, roundTo, pyRoundHalfEven, ratFloor_eq]

/-- C1 (amended): every PassEvent emitted by the compute_passes_mvd
accumulator has culminationUtc, maxElevationDeg and setUtc populated, so no
pass is ever emitted without a culmination; the rise field, however, may be
absent when the window opens mid-pass. -/
theorem c1_amended_emitted_pass_fields (elev : ℤ → ℚ)
    (events : List (ℤ × EventKind)) :
    ∀ p ∈ compute_passes elev events,
      p.culminationUtc.isSome = true ∧ p.maxElevationDeg.isSome = true ∧
        p.setUtc.isSome = true := by
  intro p hp
  refine compute_passes_fold_invariant elev events [] emptyPass ?_ ?_ p hp
  · intro q hq; simp at hq
  · intro h; simp [emptyPass] at h

/-- Witness for the amended C1 theorem: the pass emitted from the concrete
mid-pass window has culmination, max elevation and set populated. -/
theorem c1_amended_witness :
    (PassRec.mk none (some 2) (some 45) (some 3)).culminationUtc.isSome = true ∧
      (PassRec.mk none (some 2) (some 45) (some 3)).maxElevationDeg.isSome = true ∧
      (PassRec.mk none (some 2) (some 45) (some 3)).setUtc.isSome = true :=
  c1_amended_emitted_pass_fields (fun _ => (45 : ℚ))
    [(2, EventKind.culminate), (3, EventKind.set)] _
    (by norm_num [compute_passes, passStep, emptyPass, roundTo, pyRoundHalfEven, ratFloor_eq])

/-- C4: the three reference scenarios of the pass reducer. Rise at 1,
culmination at 2 with elevation 45, set at 3 emits exactly one pass with max
elevation 45. Rise at 1, rise at 2, culmination at 3 with elevation 30, set at
4 emits exactly one pass whose rise time is 2. A lone rise at 1 emits no pass. -/
theorem c4_pass_reduction_scenarios :
    compute_passes (fun t => if t = 2 then (45 : ℚ) else 0)
        [(1, EventKind.rise), (2, EventKind.culminate), (3, EventKind.set)] =
      [{ riseUtc := some 1, culminationUtc := some 2, maxElevationDeg := some 45,
         setUtc := some 3 }] ∧
    compute_passes (fun t => if t = 3 then (30 : ℚ) else 0)
        [(1, EventKind.rise), (2, EventKind.rise), (3, EventKind.culminate),
         (4, EventKind.set)] =
      [{ riseUtc := some 2, culminationUtc := some 3, maxElevationDeg := some 30,
         setUtc := some 4 }] ∧
    compute_passes (fun _ => (45 : ℚ)) [(1, EventKind.rise)] = [] := by
  refine ⟨?_, ?_, ?_⟩ <;>
    norm_num [compute_passes, passStep, emptyPass, roundTo, pyRoundHalfEven, ratFloor_eq]

end PassesService

namespace TrackService

/-- linspace yields exactly n samples. -/
theorem linspace_length (t0 t1 : ℚ) (n : ℕ) : (linspace t0 t1 n).length = n := by
  simp [linspace]

/-- Index formula for linspace. -/
theorem linspace_getElem? (t0 t1 : ℚ) (n i : ℕ) (h : i < n) :
    (linspace t0 t1 n)[i]? = some (t0 + (i : ℚ) * (t1 - t0) / ((n : ℚ) - 1)) := by
  simp [linspace, List.getElem?_map, List.getElem?_range h]

/-- Prepending the start of an arithmetic progression shifted by one step. -/
theorem progression_cons (x s : ℚ) (m : ℕ) :
    x :: (List.range m).map (fun k : ℕ => x + s + (k : ℚ) * s) =
      (List.range (m + 1)).map (fun k : ℕ => x + (k : ℚ) * s) := by
  rw [List.range_succ_eq_map, List.map_cons, List.map_map]
  have hfun : (fun k : ℕ => x + s + (k : ℚ) * s) =
      ((fun k : ℕ => x + (k : ℚ) * s) ∘ Nat.succ) := by
    funext k
    simp only [Function.comp]
    push_cast
    ring
  rw [hfun]
  congr 1
  norm_num

/-- Closed form of the while loop of compute_track_now: starting at t it
yields the arithmetic progression t, t + step, ... whose last member is the
greatest one not past endT; when t is already past endT it yields nothing. -/
theorem genTimes_closed (endT : ℚ) (step : ℤ) (hstep : 0 < step) (t : ℚ) :
    genTimes endT step hstep t =
      if t ≤ endT then
        (List.range ((Int.floor ((endT - t) / (step : ℚ))).toNat + 1)).map
          (fun k : ℕ => t + (k : ℚ) * (step : ℚ))
      else [] := by
  have hs : (0 : ℚ) < (step : ℚ) := by exact_mod_cast hstep
  have hne : (step : ℚ) ≠ 0 := ne_of_gt hs
  refine genTimes.induct endT step hstep
    (fun t => genTimes endT step hstep t =
      if t ≤ endT then
        (List.range ((Int.floor ((endT - t) / (step : ℚ))).toNat + 1)).map
          (fun k : ℕ => t + (k : ℚ) * (step : ℚ))
      else []) ?_ ?_ t
  · intro x hx ih
    rw [genTimes, dif_pos hx, if_pos hx, ih]
    by_cases hx2 : x + (step : ℚ) ≤ endT
    · rw [if_pos hx2]
      have key : (endT - (x + (step : ℚ))) / (step : ℚ) = (endT - x) / (step : ℚ) - 1 := by
        rw [show endT - (x + (step : ℚ)) = (endT - x) - (step : ℚ) by ring, sub_div,
          div_self hne]
      have hge : (1 : ℚ) ≤ (endT - x) / (step : ℚ) := by
        rw [le_div_iff₀ hs]
        linarith
      have hfl : 1 ≤ Int.floor ((endT - x) / (step : ℚ)) :=
        Int.le_floor.mpr (by exact_mod_cast hge)
      have htn : (Int.floor ((endT - (x + (step : ℚ))) / (step : ℚ))).toNat + 1 =
          (Int.floor ((endT - x) / (step : ℚ))).toNat := by
        rw [key, Int.floor_sub_one]
        omega
      rw [htn]
      obtain ⟨m, hm⟩ : ∃ m : ℕ, (Int.floor ((endT - x) / (step : ℚ))).toNat = m + 1 :=
        ⟨(Int.floor ((endT - x) / (step : ℚ))).toNat - 1, by omega⟩
      rw [hm]
      exact progression_cons x (step : ℚ) (m + 1)
    · rw [if_neg hx2]
      have h0 : Int.floor ((endT - x) / (step : ℚ)) = 0 := by
        rw [Int.floor_eq_zero_iff]
        constructor
        · exact div_nonneg (by linarith) hs.le
        · rw [div_lt_one hs]
          linarith
      rw [h0]
      norm_num [List.range_succ]
  · intro x hx
    rw [genTimes, dif_neg hx, if_neg hx]

/-- Unfolding of a successful compute_track call. -/
theorem compute_track_eq_ok (subp : ℚ → ℚ × ℚ) {start endT : ℚ} (step : ℤ)
    (h : start < endT) :
    compute_track subp start endT step =
      .ok { times := linspace start endT
              (max 2 (Int.fdiv (pytrunc (endT - start)) step + 1)).toNat,
            points := (linspace start endT
              (max 2 (Int.fdiv (pytrunc (endT - start)) step + 1)).toNat).map
                (mkPoint subp),
            coords := (linspace start endT
              (max 2 (Int.fdiv (pytrunc (endT - start)) step + 1)).toNat).map
                (fun t => ((subp t).2, (subp t).1)) } := by
  rw [compute_track, if_neg (not_le.mpr h)]

/-- Unfolding of a successful compute_track_now call. -/
theorem compute_track_now_eq_ok (subp : ℚ → ℚ × ℚ) (start : ℚ) {minutes step : ℤ}
    (hm1 : 1 ≤ minutes) (hm2 : minutes ≤ 180) (hs1 : 1 ≤ step) (hs2 : step ≤ 120) :
    compute_track_now subp start minutes step =
      .ok { times := genTimes (start + 60 * (minutes : ℚ)) step (by omega) start,
            points := (genTimes (start + 60 * (minutes : ℚ)) step (by omega) start).map
              (mkPoint subp),
            coords := ((genTimes (start + 60 * (minutes : ℚ)) step (by omega) start).map
              (mkPoint subp)).map (fun p => (p.lon, p.lat)) } := by
  rw [compute_track_now, if_neg (by omega), dif_neg (by omega)]

/-- Endpoint and uniform spacing facts for linspace with at least 2 samples. -/
theorem linspace_props (t0 t1 : ℚ) (n : ℕ) (hn : 2 ≤ n) :
    (linspace t0 t1 n).head? = some t0 ∧
    (linspace t0 t1 n).getLast? = some t1 ∧
    ∀ i : ℕ, ∀ a b : ℚ, (linspace t0 t1 n)[i]? = some a →
      (linspace t0 t1 n)[i + 1]? = some b →
        b - a = (t1 - t0) / ((n : ℚ) - 1) := by
  have hc : ((n : ℚ) - 1) ≠ 0 := by
    have h2 : (2 : ℚ) ≤ (n : ℚ) := by exact_mod_cast hn
    linarith
  refine ⟨?_, ?_, ?_⟩
  · rw [List.head?_eq_getElem?, linspace_getElem? _ _ _ 0 (by omega)]
    norm_num
  · rw [List.getLast?_eq_getElem?, linspace_length,
      linspace_getElem? _ _ _ (n - 1) (by omega)]
    congr 1
    rw [Nat.cast_sub (by omega : 1 ≤ n), Nat.cast_one, mul_div_cancel_left₀ _ hc]
    ring
  · intro i a b ha hb
    have hi1 : i + 1 < n := by
      by_contra hcon
      rw [List.getElem?_eq_none (by rw [linspace_length]; omega)] at hb
      exact Option.noConfusion hb
    rw [linspace_getElem? _ _ _ i (by omega)] at ha
    rw [linspace_getElem? _ _ _ (i + 1) hi1] at hb
    have ha2 := Option.some_inj.mp ha
    have hb2 := Option.some_inj.mp hb
    rw [← ha2, ← hb2]
    push_cast
    ring

/-- C2 counterexample: the claim promises 2 samples when start = end, but
compute_track rejects that window with an error; and the claim promises at
least 2 samples from the from-now variant, but compute_track_now with a one
minute window and a 120 second step produces a single sample. -/
theorem c2_counterexample_degenerate_windows :
    compute_track (fun _ => ((0 : ℚ), (0 : ℚ))) 0 0 10 =
        .error "end_utc debe ser mayor que start_utc" ∧
      Except.map TrackResult.times
          (compute_track_now (fun _ => ((0 : ℚ), (0 : ℚ))) 0 1 120) =
        .ok [(0 : ℚ)] := by
  constructor
  · rw [compute_track, if_pos le_rfl]
  · rw [compute_track_now_eq_ok (fun _ => ((0 : ℚ), (0 : ℚ))) 0 (by norm_num)
      (by norm_num) (by norm_num) (by norm_num)]
    have h60 : (0 : ℚ) + 60 * ((1 : ℤ) : ℚ) = 60 := by norm_num
    rw [Except.map, genTimes_closed, if_pos (by norm_num)]
    have hfl : Int.floor (((0 : ℚ) + 60 * ((1 : ℤ) : ℚ) - 0) / ((120 : ℤ) : ℚ)) = 0 := by
      rw [Int.floor_eq_zero_iff]
      constructor <;> norm_num
    rw [hfl]
    norm_num [List.range_succ]

/-- C2 (amended): for end strictly after start, compute_track samples the
window uniformly, covering [start, end] inclusive of both endpoints with
max(2, floor(end - start) // step + 1) samples, hence always at least 2, and
start = T, end = T + 90, step = 10 gives exactly the 10 samples T, T+10, ...,
T+90; but the degenerate start = end window is rejected with an error rather
than sampled twice, and the from-now variant samples the arithmetic
progression start, start + step, ... instead: it always contains start but can
be a single sample and need not reach the window end. -/
theorem c2_amended_sampling :
    (∀ (subp : ℚ → ℚ × ℚ) (start endT : ℚ) (step : ℤ),
      start < endT → 0 < step → UniformCover subp start endT step) ∧
    ∀ (subp : ℚ → ℚ × ℚ) (start : ℚ) (minutes step : ℤ),
      1 ≤ minutes → minutes ≤ 180 → 1 ≤ step → step ≤ 120 →
        NowProgression subp start minutes step := by
  constructor
  · intro subp start endT step h1 h2
    have hN : (2 : ℤ) ≤ max 2 (Int.fdiv (pytrunc (endT - start)) step + 1) :=
      le_max_left _ _
    have hN2 : 2 ≤ (max 2 (Int.fdiv (pytrunc (endT - start)) step + 1)).toNat := by
      omega
    obtain ⟨hhead, hlast, hspace⟩ := linspace_props start endT _ hN2
    refine ⟨_, compute_track_eq_ok subp step h1, ?_, ?_, ?_, ?_, ?_⟩ <;> dsimp only
    · rw [linspace_length]
      exact hN2
    · rw [linspace_length]
    · exact hhead
    · exact hlast
    · intro i a b ha hb
      rw [linspace_length]
      exact hspace i a b ha hb
  · intro subp start minutes step hm1 hm2 hs1 hs2
    have hmq : (1 : ℚ) ≤ ((minutes : ℤ) : ℚ) := by exact_mod_cast hm1
    have hle : start ≤ start + 60 * ((minutes : ℤ) : ℚ) := by linarith
    have htimes : ∀ hp : 0 < step,
        genTimes (start + 60 * ((minutes : ℤ) : ℚ)) step hp start =
          (List.range ((Int.floor ((60 * ((minutes : ℤ) : ℚ)) / ((step : ℤ) : ℚ))).toNat
              + 1)).map (fun k : ℕ => start + (k : ℚ) * ((step : ℤ) : ℚ)) := by
      intro hp
      rw [genTimes_closed, if_pos hle,
        show start + 60 * ((minutes : ℤ) : ℚ) - start = 60 * ((minutes : ℤ) : ℚ) by ring]
    refine ⟨_, compute_track_now_eq_ok subp start hm1 hm2 hs1 hs2, ?_, ?_, ?_⟩ <;>
      dsimp only
    · exact htimes _
    · rw [htimes _, List.head?_eq_getElem?, List.getElem?_map,
        List.getElem?_range (by omega : 0 < _ + 1)]
      norm_num
    · rw [htimes _]
      simp

/-- Witness for the amended C2 theorem at the reference inputs. -/
theorem c2_amended_witness :
    UniformCover (fun _ => ((0 : ℚ), (0 : ℚ))) 0 90 10 ∧
      NowProgression (fun _ => ((0 : ℚ), (0 : ℚ))) 0 20 10 :=
  ⟨c2_amended_sampling.1 _ 0 90 10 (by norm_num) (by norm_num),
   c2_amended_sampling.2 _ 0 20 10 (by norm_num) (by norm_num) (by norm_num)
     (by norm_num)⟩

/-- C9 counterexample: the claim states the i-th polyline coordinate equals
the i-th sample's longitude and latitude, but compute_track stores the
unrounded subpoint values in the polyline while the sample fields are rounded
to 6 decimals: with every subpoint at (1/3, 1/3) the polyline coordinates are
(1/3, 1/3) while every sample field is 333333/1000000, and the two differ. -/
theorem c9_counterexample_unrounded_polyline :
    Except.map TrackResult.coords
        (compute_track (fun _ => ((1 : ℚ)/3, (1 : ℚ)/3)) 0 1 10) =
      .ok [((1 : ℚ)/3, (1 : ℚ)/3), ((1 : ℚ)/3, (1 : ℚ)/3)] ∧
    Except.map TrackResult.points
        (compute_track (fun _ => ((1 : ℚ)/3, (1 : ℚ)/3)) 0 1 10) =
      .ok [{ lat := 333333/1000000, lon := 333333/1000000 },
           { lat := 333333/1000000, lon := 333333/1000000 }] ∧
    (1 : ℚ)/3 ≠ 333333/1000000 := by
  have h1 : pytrunc ((1 : ℚ) - 0) = 1 := by norm_num [pytrunc, ratFloor_eq]
  have hts : linspace 0 1 (max 2 (Int.fdiv (pytrunc ((1 : ℚ) - 0)) 10 + 1)).toNat
      = [0, 1] := by
    rw [h1, show (max 2 (Int.fdiv 1 10 + 1)).toNat = 2 by decide]
    norm_num [linspace, List.range_succ]
  have hr : roundTo 6 (3⁻¹ : ℚ) = 333333/1000000 := by
    norm_num [roundTo, pyRoundHalfEven, ratFloor_eq]
  refine ⟨?_, ?_, by norm_num⟩
  · rw [compute_track_eq_ok _ 10 (by norm_num), hts]
    simp [Except.map]
  · rw [compute_track_eq_ok _ 10 (by norm_num), hts]
    simp [Except.map, mkPoint, hr]

/-- C9 (amended): the order asymmetry holds throughout: samples keep the
(lat, lon) field order while polyline coordinates are in [lon, lat] order. In
compute_track_now each polyline coordinate is exactly the (lon, lat) pair of
its sample; in compute_track the polyline stores the unrounded subpoint values,
so each sample is the 6 decimal rounding of its polyline coordinate, swapped,
rather than being identical to it. -/
theorem c9_amended_polyline_order :
    (∀ (subp : ℚ → ℚ × ℚ) (start endT : ℚ) (step : ℤ) (r : TrackResult),
      compute_track subp start endT step = .ok r →
        r.points = r.coords.map
          (fun c => { lat := roundTo 6 c.2, lon := roundTo 6 c.1 })) ∧
    ∀ (subp : ℚ → ℚ × ℚ) (start : ℚ) (minutes step : ℤ) (r : TrackResult),
      compute_track_now subp start minutes step = .ok r →
        r.coords = r.points.map (fun p => (p.lon, p.lat)) := by
  constructor
  · intro subp start endT step r h
    rw [compute_track] at h
    by_cases hc : endT ≤ start
    · rw [if_pos hc] at h
      exact Except.noConfusion h
    · rw [if_neg hc] at h
      injection h with h2
      subst h2
      dsimp only
      rw [List.map_map]
      rfl
  · intro subp start minutes step r h
    rw [compute_track_now] at h
    by_cases h1 : minutes < 1 ∨ 180 < minutes
    · rw [if_pos h1] at h
      exact Except.noConfusion h
    · rw [if_neg h1] at h
      by_cases h2 : step < 1 ∨ 120 < step
      · rw [dif_pos h2] at h
        exact Except.noConfusion h
      · rw [dif_neg h2] at h
        injection h with h3
        subst h3
        rfl

/-- Witness for the amended C9 theorem at concrete calls of both services. -/
theorem c9_amended_witness :
    (TrackResult.mk [0, 1] [{ lat := 0, lon := 0 }, { lat := 0, lon := 0 }]
        [(0, 0), (0, 0)]).points =
      (TrackResult.mk [0, 1] [{ lat := 0, lon := 0 }, { lat := 0, lon := 0 }]
        [(0, 0), (0, 0)]).coords.map
          (fun c => { lat := roundTo 6 c.2, lon := roundTo 6 c.1 }) ∧
    (TrackResult.mk [0] [{ lat := 0, lon := 0 }] [(0, 0)]).coords =
      (TrackResult.mk [0] [{ lat := 0, lon := 0 }] [(0, 0)]).points.map
        (fun p => (p.lon, p.lat)) :=
  ⟨c9_amended_polyline_order.1 (fun _ => ((0 : ℚ), (0 : ℚ))) 0 1 10 _ (by
      have h1 : pytrunc ((1 : ℚ) - 0) = 1 := by norm_num [pytrunc, ratFloor_eq]
      have hts : linspace 0 1 (max 2 (Int.fdiv (pytrunc ((1 : ℚ) - 0)) 10 + 1)).toNat
          = [0, 1] := by
        rw [h1, show (max 2 (Int.fdiv 1 10 + 1)).toNat = 2 by decide]
        norm_num [linspace, List.range_succ]
      rw [compute_track_eq_ok _ 10 (by norm_num), hts]
      norm_num [mkPoint, roundTo, pyRoundHalfEven, ratFloor_eq]),
   c9_amended_polyline_order.2 (fun _ => ((0 : ℚ), (0 : ℚ))) 0 1 120 _ (by
      rw [compute_track_now_eq_ok (fun _ => ((0 : ℚ), (0 : ℚ))) 0 (by norm_num)
        (by norm_num) (by norm_num) (by norm_num)]
      have ht : genTimes ((0 : ℚ) + 60 * ((1 : ℤ) : ℚ)) 120 (by norm_num) 0 = [0] := by
        rw [genTimes_closed, if_pos (by norm_num)]
        have hfl : Int.floor (((0 : ℚ) + 60 * ((1 : ℤ) : ℚ) - 0) / ((120 : ℤ) : ℚ))
            = 0 := by
          rw [Int.floor_eq_zero_iff]
          constructor <;> norm_num
        rw [hfl]
        norm_num [List.range_succ]
      rw [ht]
      norm_num [mkPoint, roundTo, pyRoundHalfEven, ratFloor_eq])⟩

end TrackService

namespace TleStore

/-- C3 counterexample: the claim states the TLE file read path treats any
structural violation as slot-absent and never surfaces the parse failure, but
a two line file makes _read_tle_file raise, and get_satellite_by_key passes
that error to its caller; the slot-absent outcome is a different error, raised
only when the file is missing. -/
theorem c3_counterexample_parse_error_raised :
    resolve_read (some "ISS\n1 25544U 98067A\n") 25544 =
        .error "TLE invalido (esperaba 3 lineas)" ∧
      resolve_read none 25544 = .error "No existe TLE local" :=
  ⟨rfl, rfl⟩

/-- C3 (amended): every structural violation of the on-disk TLE file named by
the spec, too few non-blank lines, wrong line starts, or an embedded catnr
that fails to parse or to match, is raised by the resolution read path to the
caller as a hard error; it is not converted into the slot-absent outcome. -/
theorem c3_amended_parse_error_propagates (content : String) (catnr : ℕ)
    (hviol : (nonBlankLines content).length < 3 ∨
      ¬ strStarts (stripBom ((nonBlankLines content).getD 1 "")) "1 " ∨
      ¬ strStarts ((nonBlankLines content).getD 2 "") "2 " ∨
      _parse_catnr_from_line1 (stripBom ((nonBlankLines content).getD 1 "")) ≠
        .ok catnr) :
    ∃ msg : String, resolve_read (some content) catnr = .error msg := by
  simp only [resolve_read, _read_tle_file]
  by_cases h3 : (nonBlankLines content).length < 3
  · rw [if_pos h3]
    exact ⟨_, rfl⟩
  · rw [if_neg h3]
    by_cases hsw : ¬ (strStarts (stripBom ((nonBlankLines content).getD 1 "")) "1 " ∧
        strStarts ((nonBlankLines content).getD 2 "") "2 ")
    · rw [if_pos hsw]
      exact ⟨_, rfl⟩
    · rw [if_neg hsw]
      push_neg at hsw
      rcases hviol with hv | hv | hv | hv
      · omega
      · exact absurd hsw.1 hv
      · exact absurd hsw.2 hv
      · cases hp : _parse_catnr_from_line1
            (stripBom ((nonBlankLines content).getD 1 "")) with
        | error e =>
            exact ⟨e, rfl⟩
        | ok found =>
            have hne : found ≠ catnr := by
              intro hEq
              rw [hp, hEq] at hv
              exact hv rfl
            exact ⟨"TLE invalido (CATNR distinto)", by simp [hne]⟩

/-- Witness for the amended C3 theorem: the two line file is rejected with an
error by the read path. -/
theorem c3_amended_witness :
    ∃ msg : String, resolve_read (some "1 25544U 98067A\n2 25544 51.6400") 25544 =
      .error msg :=
  c3_amended_parse_error_propagates "1 25544U 98067A\n2 25544 51.6400" 25544
    (Or.inl (by decide))

/-- C5: the free-text locator of the acquisition pipeline never synthesizes
the placeholder name, because the scan starts at line index 1: a payload whose
very first non-blank line is the matching "1 " line yields no record at all,
while the spec (matched by the dead placeholder branch in the same expression)
wants a record named CATNR n. With a name line prepended the same payload is
located, and the spec-modelled locator also finds the record in the headerless
payload, naming it by the placeholder. -/
theorem c5_locator_first_line_bug :
    _parse_tle_text_any "1 25544U 98067A\n2 25544 51.6400" 25544 = none ∧
      _parse_tle_text_any "ISS\n1 25544U 98067A\n2 25544 51.6400" 25544 =
        some ("ISS", "1 25544U 98067A", "2 25544 51.6400") ∧
      locator_spec "1 25544U 98067A\n2 25544 51.6400" 25544 =
        some ("CATNR 25544", "1 25544U 98067A", "2 25544 51.6400") :=
  ⟨rfl, rfl, rfl⟩

end TleStore

namespace Acquisition

/-- Any single refresh call contacts at most the two configured sources. -/
theorem refresh_contacted_le_two (st : StoreState) (now : ℚ) (catnr : ℕ)
    (fetch : Source → Option TleStore.TLE) :
    (refresh_tle_best_effort st now catnr fetch).contacted.length ≤ 2 := by
  have hb : (refreshBody st now catnr fetch).contacted.length ≤ 2 := by
    rw [refreshBody]
    cases hfs : fetch .satnogs with
    | some rec => simp
    | none =>
        cases hfc : fetch .celestrak with
        | some rec => simp
        | none => simp
  rw [refresh_tle_best_effort]
  cases hla : st.lastAttempt catnr with
  | none => exact hb
  | some last =>
      by_cases hlt : now - last < 120
      · simp [if_pos hlt]
      · simpa [if_neg hlt] using hb
/-- A refresh call that contacted any source recorded its instant in the
attempt ledger. -/
theorem refresh_ledger_after (st : StoreState) (now : ℚ) (catnr : ℕ)
    (fetch : Source → Option TleStore.TLE)
    (h : (refresh_tle_best_effort st now catnr fetch).contacted ≠ []) :
    (refresh_tle_best_effort st now catnr fetch).st.lastAttempt catnr = some now := by
  have hb : (refreshBody st now catnr fetch).st.lastAttempt catnr = some now := by
    rw [refreshBody]
    cases hfs : fetch .satnogs with
    | some rec => simp [writeSlot]
    | none =>
        cases hfc : fetch .celestrak with
        | some rec => simp [writeSlot]
        | none => simp
  rw [refresh_tle_best_effort] at h ⊢
  cases hla : st.lastAttempt catnr with
  | none => exact hb
  | some last =>
      rw [hla] at h
      by_cases hlt : now - last < 120
      · simp [hlt] at h
      · simpa [hlt] using hb

/-- C6 counterexample: the claim bounds the total sources contacted by two
refresh calls within the cooldown at one, but a first call whose sources all
fail already contacts two sources, SatNOGS and then CelesTrak, while the
second call, gated by the cooldown, contacts none: the total is two. -/
theorem c6_counterexample_two_sources :
    (refresh_tle_best_effort emptyStore 0 1 fetchFail).contacted.length +
        (refresh_tle_best_effort (refresh_tle_best_effort emptyStore 0 1 fetchFail).st
          60 1 fetchFail).contacted.length = 2 ∧
      (refresh_tle_best_effort (refresh_tle_best_effort emptyStore 0 1 fetchFail).st
          60 1 fetchFail).contacted = [] := by
  have h1 : refresh_tle_best_effort emptyStore 0 1 fetchFail =
      refreshBody emptyStore 0 1 fetchFail := rfl
  have h2 : refreshBody emptyStore 0 1 fetchFail =
      { ok := false,
        st := { emptyStore with
                  lastAttempt := fun k => if k = 1 then some 0 else emptyStore.lastAttempt k },
        contacted := [.satnogs, .celestrak] } := rfl
  rw [h1, h2, refresh_tle_best_effort]
  norm_num

/-- C6 (amended): the cooldown gate admits at most one source-contacting call
per window: whenever the first of two refresh calls within the cooldown
contacted any source, the second contacts none and returns failure, and the
two calls together contact at most the full source list of two sources, not
at most one. -/
theorem c6_amended_cooldown_gate (st : StoreState) (now1 now2 : ℚ) (catnr : ℕ)
    (f1 f2 : Source → Option TleStore.TLE) (hwin : now2 - now1 < 120) :
    ((refresh_tle_best_effort st now1 catnr f1).contacted = [] ∨
      ((refresh_tle_best_effort (refresh_tle_best_effort st now1 catnr f1).st
          now2 catnr f2).contacted = [] ∧
        (refresh_tle_best_effort (refresh_tle_best_effort st now1 catnr f1).st
          now2 catnr f2).ok = false)) ∧
    (refresh_tle_best_effort st now1 catnr f1).contacted.length +
      (refresh_tle_best_effort (refresh_tle_best_effort st now1 catnr f1).st
        now2 catnr f2).contacted.length ≤ 2 := by
  by_cases hc : (refresh_tle_best_effort st now1 catnr f1).contacted = []
  · refine ⟨Or.inl hc, ?_⟩
    rw [hc]
    simpa using refresh_contacted_le_two _ _ _ _
  · have hled := refresh_ledger_after st now1 catnr f1 hc
    have hgate : refresh_tle_best_effort (refresh_tle_best_effort st now1 catnr f1).st
        now2 catnr f2 =
          { ok := false, st := (refresh_tle_best_effort st now1 catnr f1).st,
            contacted := [] } := by
      rw [refresh_tle_best_effort, hled]
      simp [hwin]
    refine ⟨Or.inr ?_, ?_⟩
    · rw [hgate]
      exact ⟨rfl, rfl⟩
    · rw [hgate]
      simpa using refresh_contacted_le_two _ _ _ _

/-- Witness for the amended C6 theorem: two back-to-back failing calls one
minute apart on a fresh store. -/
theorem c6_amended_witness :
    ((refresh_tle_best_effort emptyStore 0 1 fetchFail).contacted = [] ∨
      ((refresh_tle_best_effort (refresh_tle_best_effort emptyStore 0 1 fetchFail).st
          60 1 fetchFail).contacted = [] ∧
        (refresh_tle_best_effort (refresh_tle_best_effort emptyStore 0 1 fetchFail).st
          60 1 fetchFail).ok = false)) ∧
    (refresh_tle_best_effort emptyStore 0 1 fetchFail).contacted.length +
      (refresh_tle_best_effort (refresh_tle_best_effort emptyStore 0 1 fetchFail).st
        60 1 fetchFail).contacted.length ≤ 2 :=
  c6_amended_cooldown_gate emptyStore 0 60 1 fetchFail fetchFail (by norm_num)

/-- C8: a refresh whose source attempts all fail returns failure and leaves
every slot file, the TLE file and the metadata file of every catnr, exactly
as it was: refresh is non-destructive on failure. Only the in-memory attempt
ledger may change. -/
theorem c8_refresh_nondestructive (st : StoreState) (now : ℚ) (catnr : ℕ)
    (fetch : Source → Option TleStore.TLE) (h1 : fetch .satnogs = none)
    (h2 : fetch .celestrak = none) :
    (refresh_tle_best_effort st now catnr fetch).ok = false ∧
    ∀ k : ℕ, (refresh_tle_best_effort st now catnr fetch).st.tleFile k = st.tleFile k ∧
      (refresh_tle_best_effort st now catnr fetch).st.metaFile k = st.metaFile k := by
  have hbody : refreshBody st now catnr fetch =
      { ok := false,
        st := { st with
                  lastAttempt := fun k => if k = catnr then some now else st.lastAttempt k },
        contacted := [.satnogs, .celestrak] } := by
    rw [refreshBody, h1, h2]
  rw [refresh_tle_best_effort]
  cases hla : st.lastAttempt catnr with
  | none =>
      rw [hbody]
      exact ⟨rfl, fun k => ⟨rfl, rfl⟩⟩
  | some last =>
      by_cases hlt : now - last < 120
      · simp [hlt]
      · simp only [hlt, if_false]
        rw [hbody]
        exact ⟨rfl, fun k => ⟨rfl, rfl⟩⟩

/-- Witness for the C8 theorem: a failing refresh on the empty store leaves
the slot files of catnr 1 unchanged. -/
theorem c8_refresh_nondestructive_witness :
    (refresh_tle_best_effort emptyStore 0 1 fetchFail).ok = false ∧
      (refresh_tle_best_effort emptyStore 0 1 fetchFail).st.tleFile 1 =
        emptyStore.tleFile 1 ∧
      (refresh_tle_best_effort emptyStore 0 1 fetchFail).st.metaFile 1 =
        emptyStore.metaFile 1 :=
  ⟨(c8_refresh_nondestructive emptyStore 0 1 fetchFail rfl rfl).1,
   ((c8_refresh_nondestructive emptyStore 0 1 fetchFail rfl rfl).2 1).1,
   ((c8_refresh_nondestructive emptyStore 0 1 fetchFail rfl rfl).2 1).2⟩

end Acquisition

namespace AtomicWrite

/-- C7 counterexample: the claim states the metadata record is persisted as a
separate atomic write, but _write_meta performs a single direct write_text: a
reader concurrent with it can observe the truncated empty file, which is
neither the complete old metadata nor the complete new metadata. -/
theorem c7_counterexample_meta_write_not_atomic :
    "" ∈ obsTrace (fun _ => "OLDMETA") (_write_meta 1 "t" "satnogs")
        (FileId.metaFile 1) ∧
      "" ≠ "OLDMETA" ∧ "" ≠ metaJson 1 "t" "satnogs" := by
  refine ⟨?_, by decide, by decide⟩
  decide

/-- C7 (amended): the TLE record write is genuinely atomic: a reader of the
TLE file concurrent with any instant of _atomic_write_tle observes either the
complete previous content or the complete new three-line content, never a
partial file; the metadata write of the same commit, however, is a direct
write and enjoys no such guarantee. -/
theorem c7_amended_tle_write_atomic (fs : FileId → String) (catnr : ℕ)
    (name line1 line2 : String) :
    ∀ s ∈ obsTrace fs (_atomic_write_tle catnr name line1 line2)
        (FileId.tleFile catnr),
      s = fs (FileId.tleFile catnr) ∨
        s = name ++ "\n" ++ line1 ++ "\n" ++ line2 ++ "\n" := by
  intro s hs
  simp only [_atomic_write_tle, obsTrace, obsDuring, applyOp] at hs
  simp at hs
  exact hs

/-- Witness for the amended C7 theorem: the old content is among the
observable contents during an atomic TLE write over a one-file store. -/
theorem c7_amended_witness :
    "OLD" = (fun _ : FileId => "OLD") (FileId.tleFile 1) ∨
      "OLD" = "ISS" ++ "\n" ++ "1 x" ++ "\n" ++ "2 x" ++ "\n" :=
  c7_amended_tle_write_atomic (fun _ => "OLD") 1 "ISS" "1 x" "2 x" "OLD" (by decide)

end AtomicWrite

namespace Staleness

/-- C10 counterexample: the internal trigger and the public staleness report
disagree. With a readable metadata record lacking a usable fetched_at_utc and
a TLE file modified just now, _needs_refresh returns true while is_stale falls
back to the file modification time and returns false; and at an age of 21600.5
seconds against the 21600 second TTL, _needs_refresh compares the exact age
while is_stale compares the age truncated to whole seconds, so they disagree
again. -/
theorem c10_counterexample_staleness_divergence :
    (_needs_refresh 0 (some none) (some 0) = true ∧
        is_stale 0 (some none) (some 0) = false) ∧
      (_needs_refresh (21600 + 1/2) (some (some 0)) none = true ∧
        is_stale (21600 + 1/2) (some (some 0)) none = false) := by
  refine ⟨⟨rfl, ?_⟩, ?_, ?_⟩
  · have ha : tle_age_seconds 0 (some none) (some 0) = some 0 := by
      simp only [tle_age_seconds, ageFromMtime]
      norm_num [pytrunc, ratFloor_eq]
    rw [is_stale, ha]
    norm_num
  · simp only [_needs_refresh, decide_eq_true_eq, ttlSeconds]
    norm_num
  · have ha : tle_age_seconds (21600 + 1/2) (some (some 0)) none = some 21600 := by
      simp only [tle_age_seconds]
      norm_num [pytrunc, ratFloor_eq]
    rw [is_stale, ha]
    norm_num

/-- Truncation of an integer difference is exact. -/
theorem pytrunc_intCast_sub (a b : ℤ) : pytrunc ((a : ℚ) - (b : ℚ)) = a - b := by
  rw [show ((a : ℚ) - (b : ℚ)) = ((a - b : ℤ) : ℚ) by push_cast; ring, pytrunc]
  by_cases hneg : (((a - b : ℤ) : ℚ)) < 0
  · rw [if_pos hneg, ratFloor_eq,
      show (-((a - b : ℤ) : ℚ)) = ((-(a - b) : ℤ) : ℚ) by push_cast; ring,
      Int.floor_intCast]
    ring
  · rw [if_neg hneg, ratFloor_eq, Int.floor_intCast]

/-- C10 (amended): over whole-second clocks the internal trigger
_needs_refresh and the public is_stale agree on every state whose readable
metadata carries a usable fetched_at_utc; they diverge exactly when metadata
is readable but its fetched_at_utc is missing or unparsable, where
_needs_refresh reports true while is_stale falls back to the file mtime, and
on fractional ages straddling the TTL, where is_stale truncates. -/
theorem c10_amended_staleness_equiv (now : ℤ) (meta : Option (Option ℤ))
    (mtime : Option ℤ) (hmeta : meta ≠ some none) :
    _needs_refresh (now : ℚ) (meta.map (Option.map (fun f : ℤ => (f : ℚ))))
        (mtime.map (fun m : ℤ => (m : ℚ))) =
      is_stale (now : ℚ) (meta.map (Option.map (fun f : ℤ => (f : ℚ))))
        (mtime.map (fun m : ℤ => (m : ℚ))) := by
  have hcmp : ∀ b : ℤ, (ttlSeconds < (now : ℚ) - (b : ℚ)) ↔ ((21600 : ℤ) < now - b) := by
    intro b
    rw [ttlSeconds, show ((now : ℚ) - (b : ℚ)) = ((now - b : ℤ) : ℚ) by push_cast; ring]
    exact ⟨fun h => by exact_mod_cast h, fun h => by exact_mod_cast h⟩
  cases meta with
  | none =>
      cases mtime with
      | none => rfl
      | some m =>
          simp only [Option.map_none', Option.map_some', _needs_refresh, is_stale,
            tle_age_seconds, ageFromMtime, pytrunc_intCast_sub]
          rw [decide_eq_decide]
          exact hcmp m
  | some inner =>
      cases inner with
      | none => exact absurd rfl hmeta
      | some f =>
          simp only [Option.map_some', _needs_refresh, is_stale, tle_age_seconds,
            pytrunc_intCast_sub]
          rw [decide_eq_decide]
          exact hcmp f

/-- Witness for the amended C10 theorem: fresh metadata with a usable
fetched_at_utc makes the two staleness judgements agree. -/
theorem c10_amended_witness :
    _needs_refresh ((0 : ℤ) : ℚ)
        ((some (some (0 : ℤ))).map (Option.map (fun f : ℤ => (f : ℚ))))
        ((none : Option ℤ).map (fun m : ℤ => (m : ℚ))) =
      is_stale ((0 : ℤ) : ℚ)
        ((some (some (0 : ℤ))).map (Option.map (fun f : ℤ => (f : ℚ))))
        ((none : Option ℤ).map (fun m : ℤ => (m : ℚ))) :=
  c10_amended_staleness_equiv 0 (some (some 0)) none (by simp)

end Staleness
